import Mathlib

/-!
Verification of the snap-drop upload placement and metadata consistency
subsystem (`app.py`, `migrate_existing_files.py`) against its specification.

Strings are modelled as `List Char`.  Machine-level details that the claims
do not depend on (Unicode NFKD normalization on non-ASCII input, the
whitespace layout of `json.dump(indent=2)`, timestamp formatting by
`strftime`) are noted at the definition that abstracts them.
-/

set_option maxRecDepth 100000

namespace SnapDrop

/-- Whitespace characters recognised by Python's `str.split()` / `str.strip()`
on ASCII text: space, tab, newline, carriage return, vertical tab, form feed. -/
def pySpace (c : Char) : Bool :=
  c == ' ' || c == '\t' || c == '\n' || c == '\r' || c == '\x0b' || c == '\x0c'

/-- Characters kept by werkzeug's `_filename_ascii_strip_re` (the regex
`[^A-Za-z0-9_.-]` removes everything else): ASCII letters, digits,
underscore, dot, hyphen. -/
def sfAllowed (c : Char) : Bool :=
  (65 ≤ c.toNat && c.toNat ≤ 90) || (97 ≤ c.toNat && c.toNat ≤ 122) ||
    (48 ≤ c.toNat && c.toNat ≤ 57) || c == '_' || c == '.' || c == '-'

/-- Characters that can appear in a `sanitize_folder_name` result:
ASCII letters, digits, dot, hyphen (underscores have been replaced). -/
def sanChar (c : Char) : Bool :=
  (65 ≤ c.toNat && c.toNat ≤ 90) || (97 ≤ c.toNat && c.toNat ≤ 122) ||
    (48 ≤ c.toNat && c.toNat ≤ 57) || c == '.' || c == '-'

/-- Python `s.rstrip(chars)` on a list: drop the trailing run of characters
satisfying `p`. -/
def pyStripEnd (p : Char → Bool) (s : List Char) : List Char :=
  (s.reverse.dropWhile p).reverse

/-- Python `s.strip(chars)` on a list: drop the leading and trailing runs of
characters satisfying `p`. -/
def pyStrip (p : Char → Bool) (s : List Char) : List Char :=
  pyStripEnd p (s.dropWhile p)

/-- Python `str.split()` (split on whitespace runs, dropping empty words),
written with explicit fuel; `s.length + 1` units of fuel always suffice
because every produced word consumes at least one character. -/
def splitWsFuel : Nat → List Char → List (List Char)
  | 0, _ => []
  | Nat.succ n, s =>
    if (s.dropWhile pySpace).isEmpty then []
    else
      ((s.dropWhile pySpace).takeWhile (fun x => !(pySpace x))) ::
        splitWsFuel n ((s.dropWhile pySpace).dropWhile (fun x => !(pySpace x)))

/-- Python `str.split()` with the fuel instantiated. -/
def pySplit (s : List Char) : List (List Char) :=
  splitWsFuel (s.length + 1) s

/-- werkzeug's `secure_filename`, specialised to a POSIX host (`os.sep` is
`'/'`, `os.path.altsep` is `None`, no Windows device-name handling).  The
`unicodedata.normalize("NFKD", ...)` + `encode("ascii", "ignore")` step is
modelled as dropping non-ASCII characters; on ASCII codepoints (the only
ones that can survive into the output) it is exactly the identity. -/
def secure_filename (s : List Char) : List Char :=
  pyStrip (fun c => c == '.' || c == '_')
    ((List.intercalate ['_']
        (pySplit ((s.filter (fun c => c.toNat < 128)).map
          (fun c => if c == '/' then ' ' else c)))).filter sfAllowed)

/-- Python `s.replace(a, b)` for single characters. -/
def replaceChar (a b : Char) (s : List Char) : List Char :=
  s.map (fun c => if c == a then b else c)

/-- Python `"--" in s`. -/
def hasDD : List Char → Bool
  | [] => false
  | [_] => false
  | c :: d :: rest => (c == '-' && d == '-') || hasDD (d :: rest)

/-- One pass of Python `s.replace("--", "-")`: replace non-overlapping
occurrences of `"--"` left to right. -/
def replaceDD : List Char → List Char
  | [] => []
  | [c] => [c]
  | c :: d :: rest =>
    if c == '-' && d == '-' then '-' :: replaceDD rest
    else c :: replaceDD (d :: rest)

/-- The `while "--" in sanitized: sanitized = sanitized.replace("--", "-")`
loop of `sanitize_folder_name`, written with explicit fuel; each iteration
strictly shortens the string, so `s.length` units of fuel always suffice. -/
def collapseFuel : Nat → List Char → List Char
  | 0, s => s
  | Nat.succ n, s => if hasDD s then collapseFuel n (replaceDD s) else s

/-- Transformation pipeline of `sanitize_folder_name` before its final
empty-string fallback: `secure_filename`, then replace spaces and
underscores with hyphens, collapse repeated hyphens, strip edge hyphens. -/
def sanitize_core (name : List Char) : List Char :=
  pyStrip (fun c => c == '-')
    (collapseFuel (replaceChar '_' '-' (replaceChar ' ' '-' (secure_filename name))).length
      (replaceChar '_' '-' (replaceChar ' ' '-' (secure_filename name))))

/-- `sanitize_folder_name` from `app.py` (likewise in
`migrate_existing_files.py`): `secure_filename`, then replace spaces and
underscores with hyphens, collapse repeated hyphens, strip edge hyphens,
and fall back to `"user"` when nothing is left. -/
def sanitize_folder_name (name : List Char) : List Char :=
  if (sanitize_core name).isEmpty then ("user").toList else sanitize_core name

/-- `generate_upload_folder`: `f"{clean_name}-{timestamp_str}"`.  The
`strftime("%Y%m%d-%H%M%S")` formatting is abstracted: `timestamp_str` is the
already-formatted timestamp text. -/
def generate_upload_folder (uploader_name timestamp_str : List Char) : List Char :=
  sanitize_folder_name uploader_name ++ '-' :: timestamp_str

/-- One metadata entry, as built by `upload_files` in `app.py`.  Fields
absent from a legacy JSON record are `none`; `upload_time` carries the
timestamp as its formatted text. -/
structure FileRecord where
  id : List Char
  original_name : List Char
  stored_name : List Char
  folder_path : Option (List Char)
  full_path : Option (List Char)
  upload_time : List Char
  uploader_name : List Char
  uploader_email : List Char
  file_type : List Char
  file_size : Option Nat
  s3_url : Option (List Char)
deriving Repr, DecidableEq

/-- Python truthiness of `record.get(field)` for an optional string field:
both a missing key and an empty string are falsy. -/
def truthy : Option (List Char) → Bool
  | none => false
  | some s => !s.isEmpty

/-- Storage configuration: `USE_S3`, `S3_BUCKET`, `S3_REGION`. -/
structure StorageConfig where
  use_s3 : Bool
  bucket : List Char
  region : List Char
deriving Repr, DecidableEq

/-- Locations of the physical blobs: local file paths (relative to
`UPLOAD_FOLDER` for the migration model; pre-joined for the deletion model)
and remote object keys. -/
structure FsState where
  localFiles : List (List Char)
  s3Objects : List (List Char)
deriving Repr, DecidableEq

/-- `shutil.move` of a local blob: the old path disappears, the new one
appears. -/
def fsMoveLocal (oldPath newPath : List Char) (st : FsState) : FsState :=
  { st with localFiles := newPath :: st.localFiles.erase oldPath }

/-- Successful `copy_s3_object`: copy to the new key, then delete the old
key. -/
def fsMoveS3 (oldKey newKey : List Char) (st : FsState) : FsState :=
  { st with s3Objects := newKey :: st.s3Objects.erase oldKey }

/-- `os.path.join a b` for a relative `b` and a non-empty `a` without a
trailing slash (the shapes that occur in this program). -/
def osJoin (a b : List Char) : List Char := a ++ '/' :: b

/-- Legacy S3 key: `f"snap-drop-uploads/{stored_name}"`. -/
def s3KeyLegacy (stored : List Char) : List Char :=
  ("snap-drop-uploads/").toList ++ stored

/-- Folder-structured S3 key:
`f"snap-drop-uploads/{folder_path}/{stored_name}"`. -/
def s3KeyNew (folder stored : List Char) : List Char :=
  ("snap-drop-uploads/").toList ++ folder ++ '/' :: stored

/-- Resolved remote URL:
`f"https://{S3_BUCKET}.s3.{S3_REGION}.amazonaws.com/{s3_key}"`. -/
def s3Url (cfg : StorageConfig) (key : List Char) : List Char :=
  ("https://").toList ++ cfg.bucket ++ (".s3.").toList ++ cfg.region ++
    (".amazonaws.com/").toList ++ key

/-! ## Extension handling (`allowed_file`, `get_file_type`) -/

/-- Python `filename.rsplit(".", 1)[1]`: the text after the last dot, or
`none` when there is no dot (where the Python expression raises
`IndexError`). -/
def lastDotExt? (s : List Char) : Option (List Char) :=
  if s.contains '.' then some ((s.reverse.takeWhile (fun c => c != '.')).reverse)
  else none

/-- Image extensions, from `get_file_type`. -/
def imageExts : List (List Char) :=
  [("jpg").toList, ("jpeg").toList, ("png").toList, ("gif").toList,
   ("webp").toList, ("bmp").toList, ("tiff").toList]

/-- Video extensions, from `get_file_type`. -/
def videoExts : List (List Char) :=
  [("mp4").toList, ("avi").toList, ("mov").toList, ("wmv").toList,
   ("flv").toList, ("webm").toList, ("mkv").toList, ("3gp").toList]

/-- `ALLOWED_EXTENSIONS` from `app.py` (a set in the source; membership is
all that is ever used). -/
def ALLOWED_EXTENSIONS : List (List Char) := imageExts ++ videoExts

/-- `allowed_file`: the filename contains a dot and its lowercased last
extension is allowed. -/
def allowed_file (filename : List Char) : Bool :=
  filename.contains '.' &&
    (match lastDotExt? filename with
     | some e => ALLOWED_EXTENSIONS.contains (e.map Char.toLower)
     | none => false)

/-- Classification used by `get_file_type` once the lowercased extension is
in hand. -/
def classify_ext (ext : List Char) : List Char :=
  if imageExts.contains ext then ("image").toList
  else if videoExts.contains ext then ("video").toList
  else ("unknown").toList

/-- `get_file_type` from `app.py`; `none` where the Python function would
raise `IndexError` (filename without a dot). -/
def get_file_type (filename : List Char) : Option (List Char) :=
  (lastDotExt? filename).map (fun e => classify_ext (e.map Char.toLower))

/-! ## Upload orchestration (`upload_files`, `app.py` lines 231-314) -/

/-- One file of an upload request: its declared filename, the byte size the
staged copy will have on disk, and whether the remote put for it would
succeed (the network outcome, an oracle of the environment). -/
structure InputFile where
  filename : List Char
  size : Nat
  s3ok : Bool
deriving Repr, DecidableEq

/-- Result of processing one valid file: the metadata record built for it
and whether its local staging copy is still on disk afterwards. -/
structure ProcessedFile where
  record : FileRecord
  localKept : Bool
deriving Repr, DecidableEq

/-- Body of the `upload_files` loop for a file that passed the
`file and file.filename and allowed_file(file.filename)` test
(`app.py` lines 258-292).  Returns `none` where the Python code raises
`IndexError`: `secure_filename` may strip the dot from a name like
`".jpg"`, making `original_filename.rsplit(".", 1)[1]` fail. -/
def process_valid_file (cfg : StorageConfig) (fid folder_path upload_time
    name email : List Char) (f : InputFile) : Option ProcessedFile :=
  let original := secure_filename f.filename
  match lastDotExt? original with
  | none => none
  | some e =>
    let ext := e.map Char.toLower
    let stored := fid ++ '.' :: ext
    let s3Success := cfg.use_s3 && f.s3ok
    some
      { record :=
          { id := fid
            original_name := original
            stored_name := stored
            folder_path := some folder_path
            full_path := some (folder_path ++ '/' :: stored)
            upload_time := upload_time
            uploader_name := name
            uploader_email := email
            file_type := classify_ext ext
            file_size := if !cfg.use_s3 then some f.size else none
            s3_url := if s3Success then some (s3Url cfg (s3KeyNew folder_path stored))
                      else none }
        localKept := !s3Success }

/-- HTTP outcome of an upload request: 200 with the accepted names, 400
with an error message, or an unhandled exception (HTTP 500). -/
inductive UploadResponse
  | ok (files : List (List Char))
  | badRequest (msg : List Char)
  | crash
deriving Repr, DecidableEq

/-- Outcome of an upload request together with the metadata collection that
is persisted on disk afterwards. -/
structure UploadResult where
  response : UploadResponse
  metadata : List FileRecord
deriving Repr, DecidableEq

/-- The `for file in files` loop of `upload_files`: skip files failing the
validity test, process the rest, abort the whole request (`none`) if any
processed file raises.  `ids k` supplies the `uuid4` value for the k-th
valid file. -/
def upload_loop (cfg : StorageConfig) (ids : Nat → List Char)
    (folder upload_time name email : List Char) :
    Nat → List InputFile → Option (List FileRecord × List (List Char))
  | _, [] => some ([], [])
  | k, f :: rest =>
    if !f.filename.isEmpty && allowed_file f.filename then
      match process_valid_file cfg (ids k) folder upload_time name email f with
      | none => none
      | some pf =>
        match upload_loop cfg ids folder upload_time name email (k + 1) rest with
        | none => none
        | some (rs, names) => some (pf.record :: rs, pf.record.original_name :: names)
    else upload_loop cfg ids folder upload_time name email k rest

/-- `upload_files` (`app.py` lines 231-314): validate the uploader name and
the presence of files, compute the shared batch folder, process each file,
and persist the whole collection once when at least one file was accepted.
The 400 message for the zero-valid case lists the allowed extensions in the
source (set iteration order, unspecified); only its prefix is modelled. -/
def upload_files (cfg : StorageConfig) (ids : Nat → List Char)
    (timestamp_str rawName email : List Char) (files : List InputFile)
    (metadata : List FileRecord) : UploadResult :=
  let name := pyStrip pySpace rawName
  if name.isEmpty then ⟨.badRequest (("Name is required").toList), metadata⟩
  else if files.isEmpty || files.all (fun f => f.filename.isEmpty) then
    ⟨.badRequest (("No files selected").toList), metadata⟩
  else
    let folder := generate_upload_folder name timestamp_str
    match upload_loop cfg ids folder timestamp_str name email 0 files with
    | none => ⟨.crash, metadata⟩
    | some (records, names) =>
      if names.isEmpty then
        ⟨.badRequest (("No valid files uploaded").toList), metadata⟩
      else ⟨.ok names, metadata ++ records⟩

/-! ## Storage-path resolution (`serve_file` lines 420-433, `delete_file`
lines 391-401) -/

/-- Local path computed by `serve_file` when it serves from disk
(`app.py` lines 422-430). -/
def serve_local_path (root : List Char) (r : FileRecord) : List Char :=
  if truthy r.folder_path then osJoin (osJoin root (r.folder_path.getD [])) r.stored_name
  else osJoin root r.stored_name

/-- Local path computed by `delete_file` (`app.py` lines 392-401). -/
def delete_local_path (root : List Char) (r : FileRecord) : List Char :=
  if truthy r.folder_path then osJoin (osJoin root (r.folder_path.getD [])) r.stored_name
  else osJoin root r.stored_name

/-- Modelled from the spec: `resolveStoragePath(record)` of §4.2 — if
`folder_path` is present (holds a non-empty path), the blob lives at
`folder_path/stored_name` under the root; otherwise (legacy record) at
`stored_name` directly under the root. -/
def resolveStoragePath (root : List Char) (r : FileRecord) : List Char :=
  if truthy r.folder_path then osJoin root (osJoin (r.folder_path.getD []) r.stored_name)
  else osJoin root r.stored_name

/-! ## Deletion orchestration (`delete_file`, `app.py` lines 365-409) -/

/-- S3 key derived by `delete_file` (`app.py` lines 380-385). -/
def delete_s3_key (r : FileRecord) : List Char :=
  if truthy r.folder_path then s3KeyNew (r.folder_path.getD []) r.stored_name
  else s3KeyLegacy r.stored_name

/-- The record-lookup loop of `delete_file`: pop the first record whose
`id` matches, keep the rest in order. -/
def pop_by_id (fid : List Char) : List FileRecord → Option FileRecord × List FileRecord
  | [] => (none, [])
  | r :: rest =>
    if r.id = fid then (some r, rest)
    else
      let (found, rs) := pop_by_id fid rest
      (found, r :: rs)

/-- Environment outcomes for one deletion: whether the remote
`delete_object` call succeeds (a `ClientError` otherwise) and whether
`os.remove` succeeds (an `OSError` otherwise). -/
structure DeleteEnv where
  s3DeleteOk : Bool
  localRemoveOk : Bool
deriving Repr, DecidableEq

/-- HTTP outcome of a delete request: 200, 404, or an uncaught exception
(HTTP 500). -/
inductive DeleteResponse
  | ok
  | notFound
  | crash
deriving Repr, DecidableEq

/-- Outcome of a delete request with the persisted collection and blob
state afterwards. -/
structure DeleteResult where
  response : DeleteResponse
  metadata : List FileRecord
  state : FsState
deriving Repr, DecidableEq

/-- `delete_file` (`app.py` lines 365-409).  `st.localFiles` holds full
joined local paths.  The remote delete is wrapped in
`try/except ClientError: pass` so its failure is swallowed; `os.remove` is
attempted only when the local path exists and its failure is NOT caught, so
it aborts the handler before `save_metadata`. -/
def delete_file (cfg : StorageConfig) (env : DeleteEnv) (root : List Char)
    (st : FsState) (metadata : List FileRecord) (fid : List Char) : DeleteResult :=
  match pop_by_id fid metadata with
  | (none, _) => ⟨.notFound, metadata, st⟩
  | (some r, remaining) =>
    let st1 :=
      if cfg.use_s3 && truthy r.s3_url then
        if env.s3DeleteOk then { st with s3Objects := st.s3Objects.erase (delete_s3_key r) }
        else st
      else st
    let lp := delete_local_path root r
    if st1.localFiles.contains lp then
      if env.localRemoveOk then
        ⟨.ok, remaining, { st1 with localFiles := st1.localFiles.erase lp }⟩
      else ⟨.crash, metadata, st1⟩
    else ⟨.ok, remaining, st1⟩

/-! ## Metadata persistence (`save_metadata`, `app.py` lines 143-145) -/

/-- JSON string escaping (quotes and backslashes; other characters of this
data never need escaping). -/
def jsonEscape (s : List Char) : List Char :=
  s.flatMap (fun c => if c == '"' || c == '\\' then ['\\', c] else [c])

/-- JSON string literal. -/
def jstr (s : List Char) : List Char := '"' :: jsonEscape s ++ ['"']

/-- JSON value of an optional string field (`null` when `None`). -/
def jOptStr : Option (List Char) → List Char
  | none => ("null").toList
  | some s => jstr s

/-- JSON value of the optional `file_size` field. -/
def jOptNat : Option Nat → List Char
  | none => ("null").toList
  | some n => (Nat.repr n).toList

/-- JSON object for one record, keys in the order `upload_files` builds the
dict.  The indent-2 whitespace that `json.dump` adds is elided; the claims
depend only on the content, never on layout. -/
def jsonRecord (r : FileRecord) : List Char :=
  ("\x7b\"id\": ").toList ++ jstr r.id ++
    (", \"original_name\": ").toList ++ jstr r.original_name ++
    (", \"stored_name\": ").toList ++ jstr r.stored_name ++
    (", \"folder_path\": ").toList ++ jOptStr r.folder_path ++
    (", \"full_path\": ").toList ++ jOptStr r.full_path ++
    (", \"upload_time\": ").toList ++ jstr r.upload_time ++
    (", \"uploader_name\": ").toList ++ jstr r.uploader_name ++
    (", \"uploader_email\": ").toList ++ jstr r.uploader_email ++
    (", \"file_type\": ").toList ++ jstr r.file_type ++
    (", \"file_size\": ").toList ++ jOptNat r.file_size ++
    (", \"s3_url\": ").toList ++ jOptStr r.s3_url ++ ("\x7d").toList

/-- Serialized form of the whole collection, as `json.dump(metadata, f)`
writes it (whitespace elided): a JSON array. -/
def jsonEncode (metadata : List FileRecord) : List Char :=
  '[' :: List.intercalate ((", ").toList) (metadata.map jsonRecord) ++ [']']

/-- File contents observable if the process is interrupted at any point
during `save_metadata(new)`: `open(METADATA_FILE, "w")` truncates the file
in place, then `json.dump` streams the serialization into it, so after `k`
characters the file holds exactly the first `k` characters of the new
encoding.  The last entry (`k` = full length) is the completed save. -/
def save_metadata_observable (new : List FileRecord) : List (List Char) :=
  (List.range ((jsonEncode new).length + 1)).map (fun k => (jsonEncode new).take k)

/-! ## Migration (`migrate_existing_files.py`) -/

/-- Per-record outcome counted by `migrate_files`. -/
inductive MigOutcome
  | migrated
  | errored
deriving Repr, DecidableEq

/-- Body of the per-record migration (`migrate_existing_files.py` lines
182-250) for a legacy record.  `st.localFiles` holds paths relative to
`UPLOAD_FOLDER`.  `s3ok` is the outcome of `copy_s3_object` (failure leaves
the remote objects as they were: the copy step failed).  Exceptions other
than the modelled outcomes do not occur in this model; the source counts
them as errors via its `try/except`. -/
def migrate_record (cfg : StorageConfig) (dry_run s3ok : Bool) (st : FsState)
    (r : FileRecord) : FsState × FileRecord × MigOutcome :=
  let folder := generate_upload_folder r.uploader_name r.upload_time
  let oldLocal := r.stored_name
  let newLocal := folder ++ '/' :: r.stored_name
  let localExists := st.localFiles.contains oldLocal
  let s3Exists := cfg.use_s3 && truthy r.s3_url
  if !localExists && !s3Exists then (st, r, .errored)
  else if dry_run then (st, r, .migrated)
  else
    let st1 := if localExists then fsMoveLocal oldLocal newLocal st else st
    if s3Exists then
      if s3ok then
        let st2 := fsMoveS3 (s3KeyLegacy r.stored_name) (s3KeyNew folder r.stored_name) st1
        (st2,
         { r with s3_url := some (s3Url cfg (s3KeyNew folder r.stored_name))
                  folder_path := some folder
                  full_path := some (folder ++ '/' :: r.stored_name) },
         .migrated)
      else (st1, r, .errored)
    else
      (st1,
       { r with folder_path := some folder
                full_path := some (folder ++ '/' :: r.stored_name) },
       .migrated)

/-- The `for file_meta in files_to_migrate` loop, threading the blob state
through the records in collection order; already-organized records are
untouched.  Returns the final state, the updated collection, and the
`migrated` / `error` counters. -/
def migrate_loop (cfg : StorageConfig) (dry_run : Bool)
    (s3ok : FileRecord → Bool) :
    FsState → List FileRecord → FsState × List FileRecord × Nat × Nat
  | st, [] => (st, [], 0, 0)
  | st, r :: rest =>
    if truthy r.folder_path then
      let (st', rs, m, e) := migrate_loop cfg dry_run s3ok st rest
      (st', r :: rs, m, e)
    else
      let (st1, r1, out) := migrate_record cfg dry_run (s3ok r) st r
      let (st', rs, m, e) := migrate_loop cfg dry_run s3ok st1 rest
      match out with
      | .migrated => (st', r1 :: rs, m + 1, e)
      | .errored => (st', r1 :: rs, m, e + 1)

/-- Overall result of one `migrate_files` run: blob state, persisted
metadata collection, and the reported counters. -/
structure MigResult where
  state : FsState
  metadata : List FileRecord
  migrated : Nat
  errors : Nat
deriving Repr, DecidableEq

/-- `migrate_files` (`migrate_existing_files.py` lines 115-273): empty
collection is a no-op; outside dry-run the pre-flight permission checks
(`metaWritable`, `uploadWritable`) abort the run with no changes; when every
record is already organized the run exits with no changes; otherwise the
records are processed and the collection is saved only when at least one
record was actually migrated and this is not a dry run.  The timestamped
backup copy is not modelled: it creates a new file and never modifies the
collection or a blob. -/
def migrate_files (cfg : StorageConfig) (dry_run : Bool)
    (s3ok : FileRecord → Bool) (metaWritable uploadWritable : Bool)
    (st : FsState) (metadata : List FileRecord) : MigResult :=
  if metadata.isEmpty then ⟨st, metadata, 0, 0⟩
  else if !dry_run && !(metaWritable && uploadWritable) then ⟨st, metadata, 0, 0⟩
  else if metadata.all (fun r => truthy r.folder_path) then ⟨st, metadata, 0, 0⟩
  else
    let (st', md', m, e) := migrate_loop cfg dry_run s3ok st metadata
    ⟨st', if !dry_run && decide (0 < m) then md' else metadata, m, e⟩

/-! ## Concrete instances used by counterexamples and witnesses -/

/-- A concrete record for the `save_metadata` analysis. -/
def c1rec : FileRecord :=
  { id := ("i1").toList, original_name := ("a.jpg").toList,
    stored_name := ("i1.jpg").toList, folder_path := some (("al-t").toList),
    full_path := some (("al-t/i1.jpg").toList), upload_time := ("t").toList,
    uploader_name := ("al").toList, uploader_email := [],
    file_type := ("image").toList, file_size := some 3, s3_url := none }

/-- Remote-backend configuration for the migration counterexample. -/
def c2cfg : StorageConfig := ⟨true, ("b").toList, ("r").toList⟩

/-- A legacy record with both a local blob and a remote blob. -/
def c2rec : FileRecord :=
  { id := ("i2").toList, original_name := ("a.jpg").toList,
    stored_name := ("f.jpg").toList, folder_path := none, full_path := none,
    upload_time := ("20240101-000000").toList, uploader_name := ("al").toList,
    uploader_email := [], file_type := ("image").toList, file_size := some 3,
    s3_url := some (s3Url c2cfg (s3KeyLegacy (("f.jpg").toList))) }

/-- Blob state before migrating `c2rec`: its local blob sits at the legacy
location, its remote blob under the legacy key. -/
def c2st : FsState := ⟨[("f.jpg").toList], [s3KeyLegacy (("f.jpg").toList)]⟩

/-- Remote-backend configuration for the upload counterexample. -/
def c3cfg : StorageConfig := ⟨true, ("b").toList, ("r").toList⟩

/-- A valid upload file whose remote put fails. -/
def c3file : InputFile := ⟨("a.jpg").toList, 5, false⟩

/-- Result of processing `c3file`: local copy kept, `file_size` null. -/
def c3pf : ProcessedFile :=
  { record :=
      { id := ("i1").toList, original_name := ("a.jpg").toList,
        stored_name := ("i1.jpg").toList, folder_path := some (("al-t").toList),
        full_path := some (("al-t/i1.jpg").toList), upload_time := ("t").toList,
        uploader_name := ("al").toList, uploader_email := [],
        file_type := ("image").toList, file_size := none, s3_url := none },
    localKept := true }

/-- Upload batch containing a hidden-style file `".jpg"` (allowed extension,
non-empty name) next to an ordinary valid file. -/
def c4files : List InputFile :=
  [⟨(".jpg").toList, 3, true⟩, ⟨("b.jpg").toList, 4, true⟩]

/-- A legacy record with a local blob, for the idempotence witness. -/
def c7rec : FileRecord :=
  { id := ("i7").toList, original_name := ("a.jpg").toList,
    stored_name := ("f7.jpg").toList, folder_path := none, full_path := none,
    upload_time := ("20240101-000000").toList, uploader_name := ("al").toList,
    uploader_email := [], file_type := ("image").toList, file_size := some 3,
    s3_url := none }

/-- Blob state before migrating `c7rec`. -/
def c7st : FsState := ⟨[("f7.jpg").toList], []⟩

/-- A legacy record whose local blob exists but cannot be removed. -/
def c5rec : FileRecord :=
  { id := ("i5").toList, original_name := ("a.jpg").toList,
    stored_name := ("f5.jpg").toList, folder_path := none, full_path := none,
    upload_time := ("t").toList, uploader_name := ("al").toList,
    uploader_email := [], file_type := ("image").toList, file_size := some 3,
    s3_url := none }

/-- Upload root used by the deletion counterexample. -/
def c5root : List Char := ("./uploads").toList

/-- Blob state before deleting `c5rec`: its local blob is present. -/
def c5st : FsState := ⟨[osJoin c5root (("f5.jpg").toList)], []⟩

/-! ## Helper lemmas about the sanitizer pipeline -/

theorem mem_of_head? {s : List Char} {c : Char} (h : s.head? = some c) : c ∈ s := by
  cases s with
  | nil => simp at h
  | cons a rest =>
    have ha : a = c := by simpa using h
    subst ha
    exact List.mem_cons_self a rest

theorem mem_of_getLast? {s : List Char} {c : Char} (h : s.getLast? = some c) : c ∈ s := by
  have h' : s.reverse.head? = some c := by simpa using h
  simpa using mem_of_head? h'

theorem mem_dropWhile {p : Char → Bool} {s : List Char} {c : Char}
    (h : c ∈ s.dropWhile p) : c ∈ s :=
  (List.dropWhile_sublist p).mem h

theorem mem_pyStripEnd {p : Char → Bool} {s : List Char} {c : Char}
    (h : c ∈ pyStripEnd p s) : c ∈ s := by
  unfold pyStripEnd at h
  rw [List.mem_reverse] at h
  have h2 := mem_dropWhile h
  simpa using h2

theorem mem_pyStrip {p : Char → Bool} {s : List Char} {c : Char}
    (h : c ∈ pyStrip p s) : c ∈ s :=
  mem_dropWhile (mem_pyStripEnd h)

theorem mem_replaceChar {a b : Char} {s : List Char} {c : Char}
    (h : c ∈ replaceChar a b s) : c = b ∨ (c ∈ s ∧ c ≠ a) := by
  unfold replaceChar at h
  obtain ⟨x, hx, hfx⟩ := List.mem_map.mp h
  by_cases hxa : x = a
  · subst hxa
    rw [if_pos (by simp)] at hfx
    exact Or.inl hfx.symm
  · rw [if_neg (by simpa using hxa)] at hfx
    subst hfx
    exact Or.inr ⟨hx, hxa⟩

theorem mem_replaceDD {s : List Char} {c : Char} (h : c ∈ replaceDD s) : c ∈ s := by
  induction s using replaceDD.induct with
  | case1 => simp [replaceDD] at h
  | case2 x =>
    simp only [replaceDD] at h
    exact h
  | case3 x d rest hdd ih =>
    simp only [replaceDD, if_pos hdd] at h
    have hx : x = '-' := by
      have h1 : (x == '-') = true ∧ (d == '-') = true := by simpa using hdd
      simpa using h1.1
    rcases List.mem_cons.mp h with h1 | h1
    · subst h1
      simp [hx]
    · have h2 := ih h1
      simp only [List.mem_cons] at h2 ⊢
      tauto
  | case4 x d rest hdd ih =>
    simp only [replaceDD, if_neg hdd] at h
    rcases List.mem_cons.mp h with h1 | h1
    · simp [h1]
    · have h2 := ih h1
      simp only [List.mem_cons] at h2 ⊢
      tauto

theorem mem_collapseFuel {n : Nat} {s : List Char} {c : Char}
    (h : c ∈ collapseFuel n s) : c ∈ s := by
  induction n generalizing s with
  | zero => simpa [collapseFuel] using h
  | succ n ih =>
    rw [collapseFuel] at h
    by_cases hdd : hasDD s
    · rw [if_pos hdd] at h
      exact mem_replaceDD (ih h)
    · rwa [if_neg hdd] at h

theorem sanChar_ranges {c : Char} (h : sanChar c = true) :
    (65 ≤ c.toNat ∧ c.toNat ≤ 90) ∨ (97 ≤ c.toNat ∧ c.toNat ≤ 122) ∨
      (48 ≤ c.toNat ∧ c.toNat ≤ 57) ∨ c = '.' ∨ c = '-' := by
  simpa [sanChar, Bool.or_eq_true, Bool.and_eq_true, decide_eq_true_eq,
    beq_iff_eq, or_assoc] using h

theorem sanChar_facts {c : Char} (h : sanChar c = true) :
    c ≠ '/' ∧ c ≠ '_' ∧ pySpace c = false ∧ sfAllowed c = true ∧ c.toNat < 128 := by
  have hval := sanChar_ranges h
  have hnum : (65 ≤ c.toNat ∧ c.toNat ≤ 90) ∨ (97 ≤ c.toNat ∧ c.toNat ≤ 122) ∨
      (48 ≤ c.toNat ∧ c.toNat ≤ 57) ∨ c.toNat = 46 ∨ c.toNat = 45 := by
    rcases hval with h1 | h1 | h1 | h1 | h1
    · exact Or.inl h1
    · exact Or.inr (Or.inl h1)
    · exact Or.inr (Or.inr (Or.inl h1))
    · subst h1; exact Or.inr (Or.inr (Or.inr (Or.inl rfl)))
    · subst h1; exact Or.inr (Or.inr (Or.inr (Or.inr rfl)))
  refine ⟨?_, ?_, ?_, ?_, ?_⟩
  · intro he
    subst he
    exact absurd hnum (by decide)
  · intro he
    subst he
    exact absurd hnum (by decide)
  · cases hps : pySpace c
    · rfl
    · exfalso
      have hws : c.toNat = 32 ∨ c.toNat = 9 ∨ c.toNat = 10 ∨ c.toNat = 13 ∨
          c.toNat = 11 ∨ c.toNat = 12 := by
        simp only [pySpace, Bool.or_eq_true, beq_iff_eq] at hps
        rcases hps with ((((h1 | h1) | h1) | h1) | h1) | h1 <;> subst h1 <;> decide
      rcases hnum with ⟨h1, h2⟩ | ⟨h1, h2⟩ | ⟨h1, h2⟩ | h1 | h1 <;> omega
  · simp only [sfAllowed, Bool.or_eq_true, Bool.and_eq_true, decide_eq_true_eq,
      beq_iff_eq]
    rcases hval with h1 | h1 | h1 | h1 | h1 <;> tauto
  · rcases hnum with ⟨h1, h2⟩ | ⟨h1, h2⟩ | ⟨h1, h2⟩ | h1 | h1 <;> omega

theorem sfAllowed_not_underscore {c : Char} (h1 : sfAllowed c = true) (h2 : c ≠ '_') :
    sanChar c = true := by
  simp only [sfAllowed, Bool.or_eq_true, Bool.and_eq_true, decide_eq_true_eq,
    beq_iff_eq] at h1
  simp only [sanChar, Bool.or_eq_true, Bool.and_eq_true, decide_eq_true_eq,
    beq_iff_eq]
  tauto

theorem sf_chars {s : List Char} {c : Char} (h : c ∈ secure_filename s) :
    sfAllowed c = true := by
  unfold secure_filename at h
  have h1 := mem_pyStrip h
  exact (List.mem_filter.mp h1).2

theorem sanitize_core_chars {n : List Char} {c : Char} (h : c ∈ sanitize_core n) :
    sanChar c = true := by
  unfold sanitize_core at h
  have h1 := mem_collapseFuel (mem_pyStrip h)
  rcases mem_replaceChar h1 with hb | ⟨h2, hne⟩
  · subst hb; decide
  · rcases mem_replaceChar h2 with hb | ⟨h3, _⟩
    · subst hb; decide
    · exact sfAllowed_not_underscore (sf_chars h3) hne

theorem sanitize_chars {n : List Char} {c : Char} (h : c ∈ sanitize_folder_name n) :
    sanChar c = true := by
  unfold sanitize_folder_name at h
  by_cases he : (sanitize_core n).isEmpty
  · rw [if_pos he] at h
    fin_cases h <;> decide
  · rw [if_neg he] at h
    exact sanitize_core_chars h

theorem hasDD_cons_false {c : Char} {rest : List Char}
    (h : hasDD (c :: rest) = false) : hasDD rest = false := by
  cases rest with
  | nil => rfl
  | cons d rest' =>
    rw [hasDD, Bool.or_eq_false_iff] at h
    exact h.2

theorem replaceDD_length_le (s : List Char) : (replaceDD s).length ≤ s.length := by
  induction s using replaceDD.induct with
  | case1 => simp [replaceDD]
  | case2 x => simp [replaceDD]
  | case3 x d rest hdd ih => rw [replaceDD, if_pos hdd]; simp; omega
  | case4 x d rest hdd ih => rw [replaceDD, if_neg hdd]; simp at ih ⊢; omega

theorem replaceDD_length_lt {s : List Char} (h : hasDD s = true) :
    (replaceDD s).length < s.length := by
  induction s using replaceDD.induct with
  | case1 => simp [hasDD] at h
  | case2 x => simp [hasDD] at h
  | case3 x d rest hdd ih =>
    rw [replaceDD, if_pos hdd]
    have := replaceDD_length_le rest
    simp
    omega
  | case4 x d rest hdd ih =>
    rw [replaceDD, if_neg hdd]
    rw [hasDD, Bool.or_eq_true] at h
    rcases h with h | h
    · exact absurd h hdd
    · have := ih h
      simp at this ⊢
      omega

theorem collapseFuel_hasDD {n : Nat} {s : List Char} (h : s.length ≤ n) :
    hasDD (collapseFuel n s) = false := by
  induction n generalizing s with
  | zero =>
    have : s = [] := List.length_eq_zero.mp (Nat.le_zero.mp h)
    subst this
    rfl
  | succ n ih =>
    rw [collapseFuel]
    by_cases hdd : hasDD s
    · rw [if_pos hdd]
      exact ih (by have := replaceDD_length_lt hdd; omega)
    · rw [if_neg hdd]
      simpa using hdd

theorem collapseFuel_id {s : List Char} (n : Nat) (h : hasDD s = false) :
    collapseFuel n s = s := by
  cases n <;> simp [collapseFuel, h]

/-- Absence of `"--"` phrased as a chain condition on adjacent characters. -/
def NoDDRel (a b : Char) : Prop := ¬(a = '-' ∧ b = '-')

theorem hasDD_false_iff {s : List Char} :
    hasDD s = false ↔ List.Chain' NoDDRel s := by
  induction s with
  | nil => simp [hasDD, List.chain'_nil]
  | cons c rest ih =>
    cases rest with
    | nil => simp [hasDD, List.chain'_singleton]
    | cons d rest' =>
      rw [hasDD, Bool.or_eq_false_iff, List.chain'_cons]
      constructor
      · rintro ⟨h1, h2⟩
        refine ⟨?_, ih.mp h2⟩
        simp only [Bool.and_eq_false_iff, beq_eq_false_iff_ne] at h1
        intro ⟨e1, e2⟩
        rcases h1 with h1 | h1 <;> exact h1 (by simp [e1, e2])
      · rintro ⟨h1, h2⟩
        refine ⟨?_, ih.mpr h2⟩
        simp only [NoDDRel, not_and] at h1
        simp only [Bool.and_eq_false_iff, beq_eq_false_iff_ne]
        by_cases hc : c = '-'
        · exact Or.inr (h1 hc)
        · exact Or.inl hc

theorem noDD_dropWhile {p : Char → Bool} {s : List Char} (h : hasDD s = false) :
    hasDD (s.dropWhile p) = false := by
  induction s with
  | nil => simpa using h
  | cons c rest ih =>
    rw [List.dropWhile_cons]
    by_cases hp : p c
    · rw [if_pos hp]
      exact ih (hasDD_cons_false h)
    · rwa [if_neg hp]

theorem noDD_reverse {s : List Char} (h : hasDD s = false) :
    hasDD s.reverse = false := by
  rw [hasDD_false_iff] at h ⊢
  rw [List.chain'_reverse]
  exact h.imp (fun a b hab => by simp only [flip, NoDDRel] at *; tauto)

theorem noDD_pyStripEnd {p : Char → Bool} {s : List Char} (h : hasDD s = false) :
    hasDD (pyStripEnd p s) = false :=
  noDD_reverse (noDD_dropWhile (noDD_reverse h))

theorem noDD_pyStrip {p : Char → Bool} {s : List Char} (h : hasDD s = false) :
    hasDD (pyStrip p s) = false :=
  noDD_pyStripEnd (noDD_dropWhile h)

theorem head_dropWhile_not {p : Char → Bool} {s : List Char} {c : Char}
    (h : (s.dropWhile p).head? = some c) : p c = false := by
  induction s with
  | nil => simp at h
  | cons a rest ih =>
    rw [List.dropWhile_cons] at h
    by_cases hp : p a
    · rw [if_pos hp] at h
      exact ih h
    · rw [if_neg hp] at h
      simp at h
      subst h
      simpa using hp

theorem getLast_pyStripEnd_not {p : Char → Bool} {s : List Char} {c : Char}
    (h : (pyStripEnd p s).getLast? = some c) : p c = false := by
  unfold pyStripEnd at h
  rw [List.getLast?_reverse] at h
  exact head_dropWhile_not h

theorem pyStripEnd_head {p : Char → Bool} {s : List Char} {c : Char}
    (h : (pyStripEnd p s).head? = some c) : s.head? = some c := by
  have hsplit : s = pyStripEnd p s ++ (s.reverse.takeWhile p).reverse := by
    unfold pyStripEnd
    rw [← List.reverse_append, List.takeWhile_append_dropWhile, List.reverse_reverse]
  rw [hsplit, List.head?_append, h]
  rfl

theorem head_pyStrip_not {p : Char → Bool} {s : List Char} {c : Char}
    (h : (pyStrip p s).head? = some c) : p c = false :=
  head_dropWhile_not (pyStripEnd_head h)

theorem getLast_pyStrip_not {p : Char → Bool} {s : List Char} {c : Char}
    (h : (pyStrip p s).getLast? = some c) : p c = false :=
  getLast_pyStripEnd_not h

theorem sanitize_core_noDD (n : List Char) : hasDD (sanitize_core n) = false := by
  unfold sanitize_core
  exact noDD_pyStrip (collapseFuel_hasDD (Nat.le_refl _))

theorem sanitize_ne_nil (n : List Char) : sanitize_folder_name n ≠ [] := by
  unfold sanitize_folder_name
  by_cases he : (sanitize_core n).isEmpty
  · rw [if_pos he]; decide
  · rw [if_neg he]
    simpa using he

theorem sanitize_noDD (n : List Char) : hasDD (sanitize_folder_name n) = false := by
  unfold sanitize_folder_name
  by_cases he : (sanitize_core n).isEmpty
  · rw [if_pos he]; decide
  · rw [if_neg he]
    exact sanitize_core_noDD n

theorem sanitize_head_ne (n : List Char) :
    (sanitize_folder_name n).head? ≠ some '-' := by
  unfold sanitize_folder_name
  by_cases he : (sanitize_core n).isEmpty
  · rw [if_pos he]; decide
  · rw [if_neg he]
    intro h
    have := head_pyStrip_not (p := fun c => c == '-') (s :=
      collapseFuel (replaceChar '_' '-' (replaceChar ' ' '-' (secure_filename n))).length
        (replaceChar '_' '-' (replaceChar ' ' '-' (secure_filename n)))) h
    simp at this

theorem sanitize_last_ne (n : List Char) :
    (sanitize_folder_name n).getLast? ≠ some '-' := by
  unfold sanitize_folder_name
  by_cases he : (sanitize_core n).isEmpty
  · rw [if_pos he]; decide
  · rw [if_neg he]
    intro h
    have := getLast_pyStrip_not (p := fun c => c == '-') (s :=
      collapseFuel (replaceChar '_' '-' (replaceChar ' ' '-' (secure_filename n))).length
        (replaceChar '_' '-' (replaceChar ' ' '-' (secure_filename n)))) h
    simp at this

/-! ## Helper lemmas for the sanitizer fixed point -/

theorem map_id_of_mem {f : Char → Char} {s : List Char}
    (h : ∀ c ∈ s, f c = c) : s.map f = s := by
  induction s with
  | nil => rfl
  | cons a rest ih =>
    rw [List.map_cons, h a (List.mem_cons_self a rest),
      ih (fun c hc => h c (List.mem_cons_of_mem a hc))]

theorem dropWhile_id_of_head {p : Char → Bool} {s : List Char}
    (h : ∀ c, s.head? = some c → p c = false) : s.dropWhile p = s := by
  cases s with
  | nil => rfl
  | cons a rest =>
    rw [List.dropWhile_cons, if_neg]
    simp [h a rfl]

theorem pyStripEnd_id {p : Char → Bool} {s : List Char}
    (h : ∀ c, s.getLast? = some c → p c = false) : pyStripEnd p s = s := by
  unfold pyStripEnd
  rw [dropWhile_id_of_head (fun c hc => h c (by simpa using hc)), List.reverse_reverse]

theorem pyStrip_id {p : Char → Bool} {s : List Char}
    (hh : ∀ c, s.head? = some c → p c = false)
    (hl : ∀ c, s.getLast? = some c → p c = false) : pyStrip p s = s := by
  unfold pyStrip
  rw [dropWhile_id_of_head hh]
  exact pyStripEnd_id hl

theorem takeWhile_all {p : Char → Bool} {s : List Char}
    (h : ∀ c ∈ s, p c = true) : s.takeWhile p = s := by
  induction s with
  | nil => rfl
  | cons a rest ih =>
    rw [List.takeWhile_cons, if_pos (h a (List.mem_cons_self a rest))]
    rw [ih (fun c hc => h c (List.mem_cons_of_mem a hc))]

theorem dropWhile_all {p : Char → Bool} {s : List Char}
    (h : ∀ c ∈ s, p c = true) : s.dropWhile p = [] := by
  induction s with
  | nil => rfl
  | cons a rest ih =>
    rw [List.dropWhile_cons, if_pos (h a (List.mem_cons_self a rest))]
    exact ih (fun c hc => h c (List.mem_cons_of_mem a hc))

theorem splitWsFuel_nil (n : Nat) : splitWsFuel n [] = [] := by
  cases n <;> rfl

theorem pySplit_single {s : List Char} (hne : s ≠ [])
    (h : ∀ c ∈ s, pySpace c = false) : pySplit s = [s] := by
  unfold pySplit
  rw [splitWsFuel]
  have hdrop : s.dropWhile pySpace = s :=
    dropWhile_id_of_head (fun c hc => h c (mem_of_head? hc))
  rw [hdrop]
  cases s with
  | nil => exact absurd rfl hne
  | cons a rest =>
    have hall : ∀ c ∈ a :: rest, (fun x => !(pySpace x)) c = true := by
      intro c hc; simp [h c hc]
    rw [takeWhile_all hall, dropWhile_all hall, splitWsFuel_nil]
    simp

theorem intercalate_single (sep x : List Char) : List.intercalate sep [x] = x := by
  simp [List.intercalate]

theorem filter_id_of {p : Char → Bool} {s : List Char}
    (h : ∀ c ∈ s, p c = true) : s.filter p = s :=
  List.filter_eq_self.mpr h

theorem secure_filename_id {y : List Char} (hne : y ≠ [])
    (hc : ∀ c ∈ y, sanChar c = true)
    (hh : y.head? ≠ some '.') (hl : y.getLast? ≠ some '.') :
    secure_filename y = y := by
  unfold secure_filename
  have hascii : y.filter (fun c => c.toNat < 128) = y :=
    filter_id_of (fun c hcm => by
      have := (sanChar_facts (hc c hcm)).2.2.2.2
      simpa using this)
  rw [hascii]
  have hmap : y.map (fun c => if c == '/' then ' ' else c) = y :=
    map_id_of_mem (fun c hcm => by
      have := (sanChar_facts (hc c hcm)).1
      simp [this])
  rw [hmap]
  have hsplit : pySplit y = [y] :=
    pySplit_single hne (fun c hcm => (sanChar_facts (hc c hcm)).2.2.1)
  rw [hsplit, intercalate_single]
  have hfilter : y.filter sfAllowed = y :=
    filter_id_of (fun c hcm => (sanChar_facts (hc c hcm)).2.2.2.1)
  rw [hfilter]
  refine pyStrip_id ?_ ?_
  · intro c hhead
    have hmem := mem_of_head? hhead
    have hund := (sanChar_facts (hc c hmem)).2.1
    have hdot : c ≠ '.' := fun e => hh (by rw [hhead, e])
    simp [hdot, hund]
  · intro c hlast
    have hmem := mem_of_getLast? hlast
    have hund := (sanChar_facts (hc c hmem)).2.1
    have hdot : c ≠ '.' := fun e => hl (by rw [hlast, e])
    simp [hdot, hund]

theorem sanitize_fixed {y : List Char} (hne : y ≠ [])
    (hc : ∀ c ∈ y, sanChar c = true) (hdd : hasDD y = false)
    (hh : y.head? ≠ some '-') (hl : y.getLast? ≠ some '-')
    (hh2 : y.head? ≠ some '.') (hl2 : y.getLast? ≠ some '.') :
    sanitize_folder_name y = y := by
  have hcore : sanitize_core y = y := by
    unfold sanitize_core
    rw [secure_filename_id hne hc hh2 hl2]
    have hsp : replaceChar ' ' '-' y = y :=
      map_id_of_mem (fun c hcm => by
        have := (sanChar_facts (hc c hcm)).2.2.1
        have hcne : c ≠ ' ' := fun e => by subst e; simp [pySpace] at this
        simp [hcne])
    rw [hsp]
    have hun : replaceChar '_' '-' y = y :=
      map_id_of_mem (fun c hcm => by
        have := (sanChar_facts (hc c hcm)).2.1
        simp [this])
    rw [hun, collapseFuel_id _ hdd]
    refine pyStrip_id ?_ ?_
    · intro c hhead
      have : c ≠ '-' := fun e => hh (by rw [hhead, e])
      simp [this]
    · intro c hlast
      have : c ≠ '-' := fun e => hl (by rw [hlast, e])
      simp [this]
  unfold sanitize_folder_name
  rw [hcore, if_neg (by simpa using hne)]

/-! ## Claim theorems -/

/-- C1: the claim says `save_metadata` overwrites the backing store
atomically, with no partial collection ever observable even if the write is
interrupted.  The code opens `metadata.json` with mode `"w"` (truncating it
in place) and streams JSON into it, so an interruption right after the
truncation leaves an empty file — a state that is the serialization of no
collection at all, hence an observably partial store. -/
theorem save_metadata_partial_observable :
    ([] : List Char) ∈ save_metadata_observable [c1rec] ∧
      ∀ md : List FileRecord, jsonEncode md ≠ ([] : List Char) := by
  constructor
  · exact List.mem_map.mpr ⟨0, List.mem_range.mpr (Nat.succ_pos _), rfl⟩
  · intro md
    simp [jsonEncode]

/-- C2 counterexample: migrating a legacy record that has both a local and
a remote blob, when the remote relocation fails, leaves the record legacy
(unchanged) — but its local blob has already been moved into the new
folder, so it is no longer at the legacy location `stored_name` that the
un-updated record implies, although it was there before the run. -/
theorem migrate_remote_failure_moves_local_cex :
    (migrate_record c2cfg false false c2st c2rec).2.2 = MigOutcome.errored ∧
      (migrate_record c2cfg false false c2st c2rec).2.1 = c2rec ∧
      c2st.localFiles.contains c2rec.stored_name = true ∧
      (migrate_record c2cfg false false c2st c2rec).1.localFiles.contains
        c2rec.stored_name = false := by
  decide

/-- C2 amended: when a legacy record's remote relocation fails, the record
is left legacy and unchanged (its fields are updated only on full success —
an errored outcome always leaves the record untouched, for any remote
outcome), and a record with no local blob is left fully consistent (state
untouched); but when a local blob exists, it has already been moved into
the new folder before the remote attempt, so it is no longer at the legacy
location the record implies. -/
theorem migrate_record_remote_failure (cfg : StorageConfig) (st : FsState)
    (r : FileRecord) (hleg : truthy r.folder_path = false)
    (hs3 : (cfg.use_s3 && truthy r.s3_url) = true) :
    ((migrate_record cfg false false st r).2.2 = MigOutcome.errored ∧
        (migrate_record cfg false false st r).2.1 = r) ∧
      (st.localFiles.contains r.stored_name = false →
        (migrate_record cfg false false st r).1 = st) ∧
      (st.localFiles.contains r.stored_name = true →
        (migrate_record cfg false false st r).1.localFiles =
          (generate_upload_folder r.uploader_name r.upload_time ++
              '/' :: r.stored_name) :: st.localFiles.erase r.stored_name) ∧
      (∀ ok : Bool, (migrate_record cfg false ok st r).2.2 = MigOutcome.errored →
        (migrate_record cfg false ok st r).2.1 = r) := by
  refine ⟨?_, ?_, ?_, ?_⟩
  · cases hl : st.localFiles.contains r.stored_name <;>
      simp [migrate_record, hs3, hl]
  · intro hl
    have hl' : ¬ (r.stored_name ∈ st.localFiles) := by simpa using hl
    simp [migrate_record, hs3, hl', fsMoveLocal]
  · intro hl
    have hl' : r.stored_name ∈ st.localFiles := by simpa using hl
    simp [migrate_record, hs3, hl', fsMoveLocal]
  · intro ok hout
    cases ok
    · cases hl : st.localFiles.contains r.stored_name <;>
        simp [migrate_record, hs3, hl]
    · cases hl : st.localFiles.contains r.stored_name <;>
        simp [migrate_record, hs3, hl] at hout

/-- Witness for the amended C2 theorem at the concrete legacy record
`c2rec` (remote blob present, local blob present, remote move failing). -/
theorem migrate_record_remote_failure_witness :
    truthy c2rec.folder_path = false ∧
      (c2cfg.use_s3 && truthy c2rec.s3_url) = true ∧
      (((migrate_record c2cfg false false c2st c2rec).2.2 = MigOutcome.errored ∧
          (migrate_record c2cfg false false c2st c2rec).2.1 = c2rec) ∧
        (c2st.localFiles.contains c2rec.stored_name = false →
          (migrate_record c2cfg false false c2st c2rec).1 = c2st) ∧
        (c2st.localFiles.contains c2rec.stored_name = true →
          (migrate_record c2cfg false false c2st c2rec).1.localFiles =
            (generate_upload_folder c2rec.uploader_name c2rec.upload_time ++
                '/' :: c2rec.stored_name) :: c2st.localFiles.erase c2rec.stored_name) ∧
        (∀ ok : Bool,
          (migrate_record c2cfg false ok c2st c2rec).2.2 = MigOutcome.errored →
          (migrate_record c2cfg false ok c2st c2rec).2.1 = c2rec)) :=
  ⟨by decide, by decide,
    migrate_record_remote_failure c2cfg c2st c2rec (by decide) (by decide)⟩

/-- C3 counterexample: with the remote backend active and the remote put
failing, the local file is kept (as the claim says) but `file_size` is
`null`, not the file's byte count (5) as the claim requires. -/
theorem upload_remote_failure_no_size_cex :
    (process_valid_file c3cfg (("i1").toList) (("al-t").toList) (("t").toList)
        (("al").toList) [] c3file).map (fun pf => pf.localKept) = some true ∧
      (process_valid_file c3cfg (("i1").toList) (("al-t").toList) (("t").toList)
        (("al").toList) [] c3file).map (fun pf => pf.record.file_size) ≠
        some (some c3file.size) := by
  decide

/-- C3 amended: for every file accepted into a batch, the local staging
copy is deleted exactly on remote success (kept on remote failure and in
local mode), the resolved URL is recorded exactly on remote success, and
`file_size` records the byte count exactly when the local backend is active
— it is null whenever the remote backend is configured, including on remote
failure. -/
theorem process_valid_file_storage (cfg : StorageConfig)
    (fid folder ts name email : List Char) (f : InputFile) (pf : ProcessedFile)
    (h : process_valid_file cfg fid folder ts name email f = some pf) :
    pf.localKept = !(cfg.use_s3 && f.s3ok) ∧
      pf.record.file_size = (if cfg.use_s3 then none else some f.size) ∧
      pf.record.s3_url = (if cfg.use_s3 && f.s3ok then
        some (s3Url cfg (s3KeyNew folder pf.record.stored_name)) else none) := by
  cases he : lastDotExt? (secure_filename f.filename) with
  | none =>
    simp only [process_valid_file, he] at h
    exact Option.noConfusion h
  | some e =>
    simp only [process_valid_file, he, Option.some.injEq] at h
    subst h
    refine ⟨rfl, ?_, ?_⟩
    · cases hu : cfg.use_s3 <;> simp [hu]
    · cases hs : cfg.use_s3 && f.s3ok <;> simp [hs]

/-- Witness for the amended C3 theorem: remote backend active, remote put
failing — the file is kept and `file_size` is null. -/
theorem process_valid_file_storage_witness :
    process_valid_file c3cfg (("i1").toList) (("al-t").toList) (("t").toList)
        (("al").toList) [] c3file = some c3pf ∧
      (c3pf.localKept = !(c3cfg.use_s3 && c3file.s3ok) ∧
        c3pf.record.file_size = (if c3cfg.use_s3 then none else some c3file.size) ∧
        c3pf.record.s3_url = (if c3cfg.use_s3 && c3file.s3ok then
          some (s3Url c3cfg (s3KeyNew (("al-t").toList) c3pf.record.stored_name))
          else none)) :=
  ⟨by decide,
    process_valid_file_storage c3cfg (("i1").toList) (("al-t").toList)
      (("t").toList) (("al").toList) [] c3file c3pf (by decide)⟩

/-- C4: the claim says invalid files are skipped without failing the batch
and the request fails exactly when zero files end up valid.  A file named
`".jpg"` passes `allowed_file` (non-empty name, allowed extension), so this
batch has two valid files — yet the request fails wholesale with an
unhandled exception and records nothing, because
`secure_filename(".jpg") = "jpg"` and `"jpg".rsplit(".", 1)[1]` raises
`IndexError`. -/
theorem upload_hidden_file_crashes :
    upload_files ⟨false, [], []⟩ (fun _ => ("u").toList)
        (("20240101-000000").toList) (("alice").toList) [] c4files [] =
      ⟨.crash, []⟩ ∧
      (c4files.filter
        (fun f => !f.filename.isEmpty && allowed_file f.filename)).length = 2 := by
  decide

/-- C5 counterexample: the record with id `"i5"` is present and its local
blob exists, but `os.remove` fails; the resulting `OSError` is not caught,
so the handler aborts before `save_metadata` and the record is NOT removed
— local blob-deletion failure does block metadata removal. -/
theorem delete_local_failure_blocks_cex :
    (delete_file ⟨false, [], []⟩ ⟨true, false⟩ c5root c5st [c5rec]
        (("i5").toList)).response = DeleteResponse.crash ∧
      (delete_file ⟨false, [], []⟩ ⟨true, false⟩ c5root c5st [c5rec]
        (("i5").toList)).metadata = [c5rec] := by
  decide

/-- C5 amended: for a deletion of an id present in the collection, the
handler crashes exactly when the local blob exists and its removal fails
(so the remote delete outcome never matters: its failure is swallowed);
whenever it does not crash, the record is removed and the remaining
collection persisted; on a crash the collection is left unchanged. -/
theorem delete_file_blob_failure (cfg : StorageConfig) (env : DeleteEnv)
    (root : List Char) (st : FsState) (md : List FileRecord) (fid : List Char)
    (r : FileRecord) (rest : List FileRecord)
    (h : pop_by_id fid md = (some r, rest)) :
    ((delete_file cfg env root st md fid).response = DeleteResponse.crash ↔
        st.localFiles.contains (delete_local_path root r) = true ∧
          env.localRemoveOk = false) ∧
      ((delete_file cfg env root st md fid).response ≠ DeleteResponse.crash →
        (delete_file cfg env root st md fid).response = DeleteResponse.ok ∧
          (delete_file cfg env root st md fid).metadata = rest) ∧
      ((delete_file cfg env root st md fid).response = DeleteResponse.crash →
        (delete_file cfg env root st md fid).metadata = md) := by
  have hlf : (if cfg.use_s3 && truthy r.s3_url then
      (if env.s3DeleteOk then
        { st with s3Objects := st.s3Objects.erase (delete_s3_key r) } else st)
      else st).localFiles = st.localFiles := by
    by_cases h1 : cfg.use_s3 && truthy r.s3_url
    · rw [if_pos h1]
      by_cases h2 : env.s3DeleteOk
      · rw [if_pos h2]
      · rw [if_neg h2]
    · rw [if_neg h1]
  simp only [delete_file, h, hlf]
  cases hc : st.localFiles.contains (delete_local_path root r) <;>
    cases hr : env.localRemoveOk <;> simp [hc, hr]

/-- Witness for the amended C5 theorem: the remote delete outcome is a
failure, the local blob's removal succeeds — the record is removed and
persisted. -/
theorem delete_file_blob_failure_witness :
    pop_by_id (("i5").toList) [c5rec] = (some c5rec, []) ∧
      (((delete_file ⟨false, [], []⟩ ⟨false, true⟩ c5root c5st [c5rec]
            (("i5").toList)).response = DeleteResponse.crash ↔
          c5st.localFiles.contains (delete_local_path c5root c5rec) = true ∧
            (⟨false, true⟩ : DeleteEnv).localRemoveOk = false) ∧
        ((delete_file ⟨false, [], []⟩ ⟨false, true⟩ c5root c5st [c5rec]
            (("i5").toList)).response ≠ DeleteResponse.crash →
          (delete_file ⟨false, [], []⟩ ⟨false, true⟩ c5root c5st [c5rec]
              (("i5").toList)).response = DeleteResponse.ok ∧
            (delete_file ⟨false, [], []⟩ ⟨false, true⟩ c5root c5st [c5rec]
                (("i5").toList)).metadata = []) ∧
        ((delete_file ⟨false, [], []⟩ ⟨false, true⟩ c5root c5st [c5rec]
            (("i5").toList)).response = DeleteResponse.crash →
          (delete_file ⟨false, [], []⟩ ⟨false, true⟩ c5root c5st [c5rec]
              (("i5").toList)).metadata = [c5rec])) :=
  ⟨by decide,
    delete_file_blob_failure ⟨false, [], []⟩ ⟨false, true⟩ c5root c5st [c5rec]
      (("i5").toList) c5rec [] (by decide)⟩

/-- C6: storage-path resolution — `folder_path/stored_name` under the root
when `folder_path` is present, `stored_name` directly under the root for a
legacy record — and both the file-serving path computation and the deletion
path computation implement exactly this resolution. -/
theorem storage_path_resolution (root : List Char) (r : FileRecord) :
    serve_local_path root r = resolveStoragePath root r ∧
      delete_local_path root r = resolveStoragePath root r := by
  cases h : truthy r.folder_path <;>
    simp [serve_local_path, delete_local_path, resolveStoragePath, h, osJoin,
      List.append_assoc]

theorem upload_loop_all_invalid (cfg : StorageConfig) (ids : Nat → List Char)
    (folder ts name email : List Char) (k : Nat) (files : List InputFile)
    (h : ∀ f ∈ files, (!f.filename.isEmpty && allowed_file f.filename) = false) :
    upload_loop cfg ids folder ts name email k files = some ([], []) := by
  induction files generalizing k with
  | nil => rfl
  | cons f rest ih =>
    have hf := h f (List.mem_cons_self f rest)
    simp only [upload_loop, hf]
    simp only [Bool.false_eq_true, if_false]
    exact ih k (fun g hg => h g (List.mem_cons_of_mem f hg))

/-- C9: for every upload request that passes the name and files-attached
checks but whose files are all invalid (empty name or disallowed
extension), the whole-collection save is skipped: the response is the 400
error and the persisted collection is exactly the one loaded at request
start. -/
theorem upload_zero_valid_unchanged (cfg : StorageConfig)
    (ids : Nat → List Char) (ts rawName email : List Char)
    (files : List InputFile) (md : List FileRecord)
    (hname : (pyStrip pySpace rawName).isEmpty = false)
    (hfiles : (files.isEmpty || files.all (fun f => f.filename.isEmpty)) = false)
    (hvalid : ∀ f ∈ files, (!f.filename.isEmpty && allowed_file f.filename) = false) :
    upload_files cfg ids ts rawName email files md =
      ⟨.badRequest (("No valid files uploaded").toList), md⟩ := by
  have hloop := upload_loop_all_invalid cfg ids
    (generate_upload_folder (pyStrip pySpace rawName) ts) ts
    (pyStrip pySpace rawName) email 0 files hvalid
  simp [upload_files, hname, hfiles, hloop]

/-- Witness for the C9 theorem: one attached file with a disallowed
extension, a non-empty uploader name, an empty starting collection. -/
theorem upload_zero_valid_unchanged_witness :
    (pyStrip pySpace (("bob").toList)).isEmpty = false ∧
      (([⟨("x.txt").toList, 1, true⟩] : List InputFile).isEmpty ||
        ([⟨("x.txt").toList, 1, true⟩] : List InputFile).all
          (fun f => f.filename.isEmpty)) = false ∧
      (∀ f ∈ ([⟨("x.txt").toList, 1, true⟩] : List InputFile),
        (!f.filename.isEmpty && allowed_file f.filename) = false) ∧
      upload_files ⟨false, [], []⟩ (fun _ => ("u").toList) (("t").toList)
          (("bob").toList) [] [⟨("x.txt").toList, 1, true⟩] [] =
        ⟨.badRequest (("No valid files uploaded").toList), []⟩ :=
  ⟨by decide, by decide, by decide,
    upload_zero_valid_unchanged ⟨false, [], []⟩ (fun _ => ("u").toList)
      (("t").toList) (("bob").toList) [] [⟨("x.txt").toList, 1, true⟩] []
      (by decide) (by decide) (by decide)⟩

theorem gen_folder_truthy (n ts : List Char) :
    truthy (some (generate_upload_folder n ts)) = true := by
  simp only [truthy, generate_upload_folder]
  cases h : sanitize_folder_name n <;> rfl

theorem migrate_record_organized (cfg : StorageConfig) (ok : Bool)
    (st : FsState) (r : FileRecord)
    (h : (migrate_record cfg false ok st r).2.2 = MigOutcome.migrated) :
    truthy (migrate_record cfg false ok st r).2.1.folder_path = true := by
  by_cases hl : r.stored_name ∈ st.localFiles
  · cases hs : cfg.use_s3 && truthy r.s3_url
    · simp [migrate_record, hl, hs, gen_folder_truthy]
    · cases ok
      · simp [migrate_record, hl, hs] at h
      · simp [migrate_record, hl, hs, gen_folder_truthy]
  · cases hs : cfg.use_s3 && truthy r.s3_url
    · simp [migrate_record, hl, hs] at h
    · cases ok
      · simp [migrate_record, hl, hs] at h
      · simp [migrate_record, hl, hs, gen_folder_truthy]

theorem migrate_loop_errors_zero_organized (cfg : StorageConfig)
    (s3ok : FileRecord → Bool) (st : FsState) (md : List FileRecord)
    (h : (migrate_loop cfg false s3ok st md).2.2.2 = 0) :
    ∀ r ∈ (migrate_loop cfg false s3ok st md).2.1, truthy r.folder_path = true := by
  induction md generalizing st with
  | nil =>
    intro r hr
    simp [migrate_loop] at hr
  | cons r rest ih =>
    cases ho : truthy r.folder_path
    · rcases hrec : migrate_record cfg false (s3ok r) st r with ⟨st1, r1, out⟩
      rcases hres : migrate_loop cfg false s3ok st1 rest with ⟨st', rs, m, e⟩
      cases out
      · -- migrated
        simp only [migrate_loop, ho, Bool.false_eq_true, if_false, hrec, hres] at h ⊢
        intro x hx
        rcases List.mem_cons.mp hx with hx | hx
        · subst hx
          have h1 : (migrate_record cfg false (s3ok r) st r).2.2 =
              MigOutcome.migrated := by rw [hrec]
          have h2 := migrate_record_organized cfg (s3ok r) st r h1
          rw [hrec] at h2
          exact h2
        · have ihh := ih st1
          rw [hres] at ihh
          exact ihh h x hx
      · -- errored: e + 1 = 0 is impossible
        simp only [migrate_loop, ho, Bool.false_eq_true, if_false, hrec, hres] at h
        omega
    · rcases hres : migrate_loop cfg false s3ok st rest with ⟨st', rs, m, e⟩
      simp only [migrate_loop, ho, if_true] at h ⊢
      rw [hres] at h ⊢
      intro x hx
      rcases List.mem_cons.mp hx with hx | hx
      · subst hx
        exact ho
      · have ihh := ih st
        rw [hres] at ihh
        exact ihh h x hx

theorem migrate_loop_counts (cfg : StorageConfig) (dry : Bool)
    (s3ok : FileRecord → Bool) (st : FsState) (md : List FileRecord) :
    (migrate_loop cfg dry s3ok st md).2.2.1 + (migrate_loop cfg dry s3ok st md).2.2.2 =
      (md.filter (fun r => !truthy r.folder_path)).length := by
  induction md generalizing st with
  | nil => simp [migrate_loop]
  | cons r rest ih =>
    cases ho : truthy r.folder_path
    · rcases hrec : migrate_record cfg dry (s3ok r) st r with ⟨st1, r1, out⟩
      rcases hres : migrate_loop cfg dry s3ok st1 rest with ⟨st', rs, m, e⟩
      have ihh : m + e = (rest.filter (fun x => !truthy x.folder_path)).length := by
        have h0 := ih st1
        rw [hres] at h0
        exact h0
      cases out <;>
        simp only [migrate_loop, ho, Bool.false_eq_true, if_false, hrec, hres,
          List.filter_cons, Bool.not_false, if_true, List.length_cons] <;>
        omega
    · rcases hres : migrate_loop cfg dry s3ok st rest with ⟨st', rs, m, e⟩
      have ihh : m + e = (rest.filter (fun x => !truthy x.folder_path)).length := by
        have h0 := ih st
        rw [hres] at h0
        exact h0
      simp only [migrate_loop, ho, if_true, hres, List.filter_cons, Bool.not_true,
        Bool.false_eq_true, if_false]
      exact ihh

theorem migrate_files_noop (cfg : StorageConfig) (s3ok : FileRecord → Bool)
    (mw uw : Bool) (st : FsState) (md : List FileRecord)
    (h : md.isEmpty = true ∨ md.all (fun r => truthy r.folder_path) = true) :
    migrate_files cfg false s3ok mw uw st md = ⟨st, md, 0, 0⟩ := by
  rcases h with h | h
  · simp [migrate_files, h]
  · cases he : md.isEmpty
    · cases hp : mw && uw <;> simp [migrate_files, he, hp, h]
    · simp [migrate_files, he]

/-- C7: running the migration twice in a row is idempotent.  If the first
(non-dry) run reports zero errors, every record it leaves behind is
organized, so a second run — under any remote-outcome oracle and any
pre-flight permission outcome — finds no legacy records, reports zero
migrated and zero errors, and changes neither the collection nor any
blob. -/
theorem migration_idempotent (cfg : StorageConfig)
    (s3ok s3ok2 : FileRecord → Bool) (mw2 uw2 : Bool) (st : FsState)
    (md : List FileRecord)
    (h : (migrate_files cfg false s3ok true true st md).errors = 0) :
    migrate_files cfg false s3ok2 mw2 uw2
        (migrate_files cfg false s3ok true true st md).state
        (migrate_files cfg false s3ok true true st md).metadata =
      ⟨(migrate_files cfg false s3ok true true st md).state,
        (migrate_files cfg false s3ok true true st md).metadata, 0, 0⟩ := by
  rcases hres : migrate_loop cfg false s3ok st md with ⟨st', md', m, e⟩
  cases h0 : md.isEmpty
  · cases hA : md.all (fun r => truthy r.folder_path)
    · -- some record is legacy: the loop runs and must migrate it
      have hrun1 : migrate_files cfg false s3ok true true st md =
          ⟨st', if (!false && decide (0 < m)) = true then md' else md, m, e⟩ := by
        simp only [migrate_files, h0, hA, hres, Bool.false_eq_true, if_false,
          Bool.true_and, Bool.and_self, Bool.not_true]
        rfl
      rw [hrun1] at h
      have he0 : e = 0 := h
      have hcount : m + e = (md.filter (fun x => !truthy x.folder_path)).length := by
        have h0 := migrate_loop_counts cfg false s3ok st md
        rw [hres] at h0
        exact h0
      have hfl : 0 < (md.filter (fun r => !truthy r.folder_path)).length := by
        obtain ⟨x, hx, hpx⟩ := List.all_eq_false.mp hA
        refine List.length_pos.mpr (List.ne_nil_of_mem (List.mem_filter.mpr ⟨hx, ?_⟩))
        simp only [Bool.not_eq_true'] at hpx ⊢
        simp [hpx]
      have hm : 0 < m := by omega
      have hif : (if (!false && decide (0 < m)) = true then md' else md) = md' := by
        simp [hm]
      have horg := migrate_loop_errors_zero_organized cfg s3ok st md
        (by rw [hres]; exact he0)
      rw [hres] at horg
      have hall2 : md'.all (fun r => truthy r.folder_path) = true :=
        List.all_eq_true.mpr (fun r hr => horg r hr)
      rw [hrun1, hif]
      exact migrate_files_noop cfg s3ok2 mw2 uw2 st' md' (Or.inr hall2)
    · -- every record already organized: first run is itself a no-op
      have hrun1 : migrate_files cfg false s3ok true true st md = ⟨st, md, 0, 0⟩ :=
        migrate_files_noop cfg s3ok true true st md (Or.inr hA)
      rw [hrun1]
      exact migrate_files_noop cfg s3ok2 mw2 uw2 st md (Or.inr hA)
  · have hrun1 : migrate_files cfg false s3ok true true st md = ⟨st, md, 0, 0⟩ :=
      migrate_files_noop cfg s3ok true true st md (Or.inl h0)
    rw [hrun1]
    exact migrate_files_noop cfg s3ok2 mw2 uw2 st md (Or.inl h0)

/-- Witness for the C7 theorem: one legacy record with a local blob, local
backend, first run succeeds with zero errors. -/
theorem migration_idempotent_witness :
    (migrate_files ⟨false, [], []⟩ false (fun _ => true) true true c7st
        [c7rec]).errors = 0 ∧
      migrate_files ⟨false, [], []⟩ false (fun _ => true) true true
          (migrate_files ⟨false, [], []⟩ false (fun _ => true) true true c7st
            [c7rec]).state
          (migrate_files ⟨false, [], []⟩ false (fun _ => true) true true c7st
            [c7rec]).metadata =
        ⟨(migrate_files ⟨false, [], []⟩ false (fun _ => true) true true c7st
            [c7rec]).state,
          (migrate_files ⟨false, [], []⟩ false (fun _ => true) true true c7st
            [c7rec]).metadata, 0, 0⟩ :=
  ⟨by decide,
    migration_idempotent ⟨false, [], []⟩ (fun _ => true) (fun _ => true) true true
      c7st [c7rec] (by decide)⟩

/-- C8 counterexample: `sanitize` is not idempotent.  For the input
`"-.a"`, stripping the edge hyphens exposes a leading dot, so
`sanitize("-.a") = ".a"`, while a second application strips that dot:
`sanitize(".a") = "a"`. -/
theorem sanitize_not_idempotent_cex :
    sanitize_folder_name (sanitize_folder_name (("-.a").toList)) ≠
      sanitize_folder_name (("-.a").toList) := by
  decide

/-- C8 amended: `sanitize` is idempotent on every input whose sanitized
form neither begins nor ends with a dot.  (The failure mode is exactly an
edge dot exposed by the final hyphen-strip, which the `strip("._")` inside
`secure_filename` removes on the second pass.) -/
theorem sanitize_idempotent_on_dotfree (n : List Char)
    (h1 : (sanitize_folder_name n).head? ≠ some '.')
    (h2 : (sanitize_folder_name n).getLast? ≠ some '.') :
    sanitize_folder_name (sanitize_folder_name n) = sanitize_folder_name n :=
  sanitize_fixed (sanitize_ne_nil n) (fun c hc => sanitize_chars hc)
    (sanitize_noDD n) (sanitize_head_ne n) (sanitize_last_ne n) h1 h2

/-- Witness for the amended C8 theorem at the concrete input `"a b"`
(sanitized form `"a-b"`, no edge dots). -/
theorem sanitize_idempotent_on_dotfree_witness :
    (sanitize_folder_name (("a b").toList)).head? ≠ some '.' ∧
      (sanitize_folder_name (("a b").toList)).getLast? ≠ some '.' ∧
      sanitize_folder_name (sanitize_folder_name (("a b").toList)) =
        sanitize_folder_name (("a b").toList) :=
  ⟨by decide, by decide,
    sanitize_idempotent_on_dotfree (("a b").toList) (by decide) (by decide)⟩

/-- C10: for every input, `sanitize_folder_name` returns a non-empty string
containing no path separator, no space, no underscore and no two
consecutive hyphens, and neither starting nor ending with a hyphen — a
single safe path component. -/
theorem sanitize_single_safe_component (n : List Char) :
    sanitize_folder_name n ≠ [] ∧
      '/' ∉ sanitize_folder_name n ∧
      '\\' ∉ sanitize_folder_name n ∧
      ' ' ∉ sanitize_folder_name n ∧
      '_' ∉ sanitize_folder_name n ∧
      hasDD (sanitize_folder_name n) = false ∧
      (sanitize_folder_name n).head? ≠ some '-' ∧
      (sanitize_folder_name n).getLast? ≠ some '-' := by
  refine ⟨sanitize_ne_nil n, ?_, ?_, ?_, ?_, sanitize_noDD n,
    sanitize_head_ne n, sanitize_last_ne n⟩ <;>
    (intro hmem; exact absurd (sanitize_chars hmem) (by decide))

end SnapDrop
